import Mathlib

/-!
Verification development for the Trad-Chem repository.

This file gives a shallow embedding, in Lean 4, of the catalog / query /
aggregation / import-export code of the repository (principally
`tradchem/tradchem.py`, `tradchem/utils/data_utils.py` and the embedded
copy of the `TradChem` class in `colab_simple_install.py`), and proves or
refutes the behavioural claims made about it.

Modelling conventions:
* Python strings are `String`; Python numbers (floats used as molecular
  weights and averages) are modelled as `ℚ`.
* Python `str.strip` / `str.split` / `str.join` / `str.lower` and the
  substring operator `in` are embedded as explicit character-list
  functions (`pyStrip`, `pySplit`, `pyJoin`, `pyLower`, `pyContainsStr`)
  so that every proof can compute with them.
* Raw JSON-ish dictionaries (used by the record validator) are the
  inductive `PyVal`; dictionaries are association lists in insertion
  order, which is how Python dictionaries iterate.
* Typed catalog records (used by the query/aggregation functions, which
  only access a fixed set of keys through `dict.get`) are the structure
  `Medicine` below.
* External collaborators (the file system, the JSON decoder, pandas, the
  RDKit-backed SMILES validator) are parameters: the embedding takes them
  as function arguments, as the specification treats them as external.
* A Python function that can raise is embedded with `Except`/`Option`;
  a raised exception that the source catches and converts to a default
  is embedded as that default.
-/

/-! ### Python string primitives -/

/-- Characters of a string after the last occurrence of `sep`
(the whole string when `sep` does not occur). -/
def afterLast (sep : Char) (cs : List Char) : List Char :=
  (cs.reverse.takeWhile (fun c => c ≠ sep)).reverse

/-- Python `str.strip()` on a character list: drop whitespace from both ends. -/
def pyStripChars (cs : List Char) : List Char :=
  ((cs.dropWhile Char.isWhitespace).reverse.dropWhile Char.isWhitespace).reverse

/-- Python `str.strip()`. -/
def pyStrip (s : String) : String :=
  String.mk (pyStripChars s.data)

/-- Python `str.split(sep)` for a one-character separator, on character
lists.  `"".split(sep)` is `[""]`, like in Python. -/
def pySplitChars (sep : Char) : List Char → List (List Char)
  | [] => [[]]
  | c :: rest =>
    match pySplitChars sep rest with
    | [] => [[c]]
    | h :: t => if c = sep then [] :: h :: t else (c :: h) :: t

/-- Python `str.split(sep)` for a one-character separator. -/
def pySplit (s : String) (sep : Char) : List String :=
  (pySplitChars sep s.data).map String.mk

/-- Python `sep.join(xs)` on character lists. -/
def pyJoinChars (sep : List Char) : List (List Char) → List Char
  | [] => []
  | [b] => b
  | b :: c :: rest => b ++ sep ++ pyJoinChars sep (c :: rest)

/-- Python `sep.join(xs)`. -/
def pyJoin (sep : String) (xs : List String) : String :=
  String.mk (pyJoinChars sep.data (xs.map String.data))

/-- Python `str.lower()` (ASCII case folding, enough for this code base). -/
def pyLower (s : String) : String :=
  String.mk (s.data.map Char.toLower)

/-- Python substring test `needle in hay`. -/
def pyContainsStr (hay needle : String) : Bool :=
  decide (needle.data <:+: hay.data)

/-! ### Raw Python values (JSON-ish dictionaries) -/

/-- A dynamically typed Python value, as used by the record validator.
Dictionaries are association lists in insertion order; the keys occurring
in this code base are strings. -/
inductive PyVal where
  | vstr (s : String)
  | vnum (q : ℚ)
  | vlist (xs : List PyVal)
  | vdict (kvs : List (String × PyVal))

/-- A Python dictionary with string keys. -/
abbrev PyDict := List (String × PyVal)

/-- First-match lookup in an association list (Python dictionary keys are
unique, so first match is the match). -/
def dictLookup (kvs : PyDict) (k : String) : Option PyVal :=
  match kvs with
  | [] => none
  | (k2, v) :: rest => if k2 = k then some v else dictLookup rest k

def PyVal.isStr : PyVal → Bool
  | .vstr _ => true
  | _ => false

def PyVal.isList : PyVal → Bool
  | .vlist _ => true
  | _ => false

def PyVal.isDict : PyVal → Bool
  | .vdict _ => true
  | _ => false

/-- Python `str(v)`, to the extent the validator interpolates values into
warning messages (exact numeric formatting is irrelevant to every claim). -/
def pyStr : PyVal → String
  | .vstr s => s
  | .vnum q => toString q
  | .vlist _ => "[...]"
  | .vdict _ => "..."

/-- Python `key in xs` for a list `xs` and a string `key`: an element is
equal to `key` exactly when it is the string `key`. -/
def listHasStr (xs : List PyVal) (k : String) : Bool :=
  xs.any (fun v => match v with | .vstr s => s = k | _ => false)

/-- Python `key in v`: substring test on strings, membership on lists,
key test on dictionaries; a `TypeError` (modelled as `.error ()`) on
numbers. -/
def pyContains (v : PyVal) (key : String) : Except Unit Bool :=
  match v with
  | .vstr s => .ok (pyContainsStr s key)
  | .vlist xs => .ok (listHasStr xs key)
  | .vdict kvs => .ok ((dictLookup kvs key).isSome)
  | .vnum _ => .error ()

/-- Python `v[key]` for a string key: succeeds only on a dictionary that
has the key; everything else raises (`TypeError`/`KeyError`). -/
def pyGetItem (v : PyVal) (key : String) : Except Unit PyVal :=
  match v with
  | .vdict kvs =>
    match dictLookup kvs key with
    | some w => .ok w
    | none => .error ()
  | _ => .error ()

/-! ### Record Model: `tradchem/utils/data_utils.py`, `validate_medicine_data`

The SMILES validity check is the external chemistry collaborator
(`smiles_utils.validate_smiles`, RDKit-backed); it is a parameter
`oracle : String → Bool`.  The wrapper in `smiles_utils` first rejects
empty (falsy) and non-string inputs. -/

/-- `smiles_utils.validate_smiles` applied to a raw value: non-strings and
the empty string are rejected before the external check runs. -/
def valSmilesVal (oracle : String → Bool) (v : PyVal) : Bool :=
  match v with
  | .vstr s => if s = "" then false else oracle s
  | _ => false

/-- Result dictionary of `validate_medicine_data`. -/
structure VRes where
  valid : Bool
  errors : List String
  warnings : List String
deriving DecidableEq

/-- The required record fields, in source order. -/
def requiredFields : List String :=
  ["product_name", "benefits", "diseases", "chemical_composition"]

/-- The required-field loop of `validate_medicine_data`: each absent field
sets `valid` to `False` and appends one error message. -/
def checkRequired (m : PyDict) (r : VRes) : VRes :=
  requiredFields.foldl
    (fun acc f =>
      if (dictLookup m f).isNone then
        ⟨false, acc.errors ++ ["Missing required field: " ++ f], acc.warnings⟩
      else acc)
    r

/-- One `isinstance` check of `validate_medicine_data`: if `field` is
present but fails `pred`, set `valid` to `False` and append `msg`. -/
def checkType (m : PyDict) (field : String) (pred : PyVal → Bool) (msg : String)
    (r : VRes) : VRes :=
  match dictLookup m field with
  | some v => if pred v then r else ⟨false, r.errors ++ [msg], r.warnings⟩
  | none => r

/-- The SMILES warning pass: for each ingredient whose detail is a
dictionary with a `smiles` key, append a warning when the collaborator
rejects the value.  Warnings never touch `valid` or `errors`. -/
def smilesWarnings (oracle : String → Bool) (ings : PyDict) : List String :=
  ings.filterMap (fun p =>
    match p.2 with
    | .vdict d =>
      match dictLookup d "smiles" with
      | some sv =>
        if valSmilesVal oracle sv then none
        else some ("Invalid SMILES for " ++ p.1 ++ ": " ++ pyStr sv)
      | none => none
    | _ => none)

/-- The state of the validation result after the required-field loop and
the four `isinstance` checks, before the SMILES warning pass. -/
def typeChecksRes (m : PyDict) : VRes :=
  checkType m "chemical_composition" PyVal.isDict "chemical_composition must be a dictionary"
    (checkType m "diseases" PyVal.isList "diseases must be a list"
      (checkType m "benefits" PyVal.isList "benefits must be a list"
        (checkType m "product_name" PyVal.isStr "product_name must be a string"
          (checkRequired m ⟨true, [], []⟩))))

/-- `data_utils.validate_medicine_data`.  The function has no exception
handler, so the `"ingredients" in medicine["chemical_composition"]` test
and the `.items()` iteration raise (`.error ()`) when
`chemical_composition` is a number, when it is a string or list that
passes the `in` test, or when its `ingredients` entry is not a
dictionary. -/
def validate_medicine_data (oracle : String → Bool) (m : PyDict) :
    Except Unit VRes :=
  let r4 := typeChecksRes m
  match dictLookup m "chemical_composition" with
  | none => .ok r4
  | some cc =>
    match pyContains cc "ingredients" with
    | .error _ => .error ()
    | .ok false => .ok r4
    | .ok true =>
      match pyGetItem cc "ingredients" with
      | .error _ => .error ()
      | .ok ings =>
        match ings with
        | .vdict d => .ok ⟨r4.valid, r4.errors, r4.warnings ++ smilesWarnings oracle d⟩
        | _ => .error ()

/-- The error messages `validate_medicine_data` emits for the absent
required fields of `m`, in source order. -/
def missingFieldMsgs (m : PyDict) : List String :=
  (requiredFields.filter (fun f => (dictLookup m f).isNone)).map
    (fun f => "Missing required field: " ++ f)

/-- Decidable well-typedness of the present fields of a record, following
the data model: `product_name` a string, `benefits`/`diseases` lists,
`chemical_composition` a dictionary whose `ingredients` entry, when
present, is itself a dictionary. -/
def wellTypedPresent (m : PyDict) : Bool :=
  (match dictLookup m "product_name" with | some v => v.isStr | none => true) &&
  (match dictLookup m "benefits" with | some v => v.isList | none => true) &&
  (match dictLookup m "diseases" with | some v => v.isList | none => true) &&
  (match dictLookup m "chemical_composition" with
   | some (.vdict d) =>
     (match dictLookup d "ingredients" with | some v => v.isDict | none => true)
   | some _ => false
   | none => true)

/-! ### Typed catalog records

The query/aggregation functions of `tradchem/tradchem.py` and of the
embedded colab `TradChem` class access records only through a fixed set
of keys (`dict.get` with a default, or guarded `in` tests), so they are
embedded over a typed record structure; `Option` marks an absent key. -/

/-- One ingredient detail dictionary, with the keys this code reads. -/
structure Ingredient where
  smiles : Option String := none
  primary_smiles : Option String := none
  molecular_weight : Option ℚ := none
  formula : Option String := none
deriving DecidableEq

/-- A `chemical_composition` dictionary; its `ingredients` entry (when
present) maps ingredient names to details, in insertion order. -/
structure ChemComposition where
  ingredients : Option (List (String × Ingredient)) := none
deriving DecidableEq

/-- One catalog record. -/
structure Medicine where
  product_name : Option String := none
  traditional_system : Option String := none
  geographic_origin : Option String := none
  benefits : Option (List String) := none
  diseases : Option (List String) := none
  chemical_composition : Option ChemComposition := none
deriving DecidableEq

/-- The ingredient list a record exposes: the source pattern
`'chemical_composition' in medicine and 'ingredients' in
medicine['chemical_composition']` followed by iteration, with `[]` when
either key is absent. -/
def ingredientsOf (m : Medicine) : List (String × Ingredient) :=
  (m.chemical_composition.bind (fun cc => cc.ingredients)).getD []

/-! ### Catalog Store: `load_data` / `load_database` / `add_medicine`

The file system, the JSON decoder (`json.load`) and the pandas readers
are external collaborators, bundled in `Fs`.  `readJson p = none` models
`json.load` raising (missing read permission, decode error, ...); the
pandas readers likewise.  `load_data` itself raises `FileNotFoundError`
on a missing path and `ValueError` on an unknown extension; both are
uncaught, so they are `.error` results. -/

/-- The external file system and parsing collaborators. -/
structure Fs where
  pathExists : String → Bool
  readJson : String → Option PyVal
  readCsv : String → Option (List PyVal)
  readExcel : String → Option (List PyVal)

/-- `os.path.splitext(path)[1].lower()`: the (lowered) extension of the
last path component, where leading dots of the component do not count. -/
def extOf (p : String) : String :=
  let base := afterLast '/' p.data
  let lead := base.takeWhile (fun c => c = '.')
  let rest := base.drop lead.length
  if rest.contains '.' then String.mk (('.' :: afterLast '.' rest).map Char.toLower)
  else ""

/-- `TradChem._load_json_data`: `json.load` errors are caught and give
`[]`; a decoded non-list is wrapped in a singleton list. -/
def load_json_data (fs : Fs) (p : String) : List PyVal :=
  match fs.readJson p with
  | none => []
  | some (.vlist xs) => xs
  | some v => [v]

/-- `TradChem.load_data`: raises `FileNotFoundError` when the path does
not exist, dispatches on the extension, and raises `ValueError` on an
unsupported extension.  The CSV/Excel helpers catch their own errors and
return `[]`. -/
def load_data (fs : Fs) (p : String) : Except String (List PyVal) :=
  if fs.pathExists p = false then .error ("File not found: " ++ p)
  else
    let ext := extOf p
    if ext = ".csv" then .ok ((fs.readCsv p).getD [])
    else if ext = ".json" then .ok (load_json_data fs p)
    else if ext = ".xlsx" ∨ ext = ".xls" then .ok ((fs.readExcel p).getD [])
    else .error ("Unsupported file format: " ++ ext)

/-- `TradChem.load_database`: delegates to `load_data` on the configured
database path (also what `TradChem.__init__` runs). -/
def load_database (fs : Fs) (databasePath : String) : Except String (List PyVal) :=
  load_data fs databasePath

/-- `TradChem.add_medicine` in `tradchem/tradchem.py`: the body is the
stub `# Implementation would go here` / `return True` — it returns `True`
for every entry and never touches `self.data`.  The result pairs the
returned boolean with the catalog after the call. -/
def add_medicine (data : List Medicine) (_entry : Medicine) : Bool × List Medicine :=
  (true, data)

/-- `TradChem.add_medicine` in the embedded colab class
(`colab_simple_install.py`): appends unconditionally and returns `True`
(the `except` branch is unreachable for a list append). -/
def colab_add_medicine (data : List Medicine) (entry : Medicine) : Bool × List Medicine :=
  (true, data ++ [entry])

/-! ### Query Engine: `filter_data` and `sort_data` -/

/-- The predicate `filter_data` uses for one criterion, `none` for an
unrecognized key (whose branch leaves the working list untouched). -/
def critPred (k v : String) : Option (Medicine → Bool) :=
  if k = "system" then
    some (fun m => pyLower (m.traditional_system.getD "") = pyLower v)
  else if k = "region" then
    some (fun m => pyLower (m.geographic_origin.getD "") = pyLower v)
  else if k = "benefit" then
    some (fun m => (m.benefits.getD []).any (fun b => pyContainsStr (pyLower b) (pyLower v)))
  else if k = "disease" then
    some (fun m => (m.diseases.getD []).any (fun d => pyContainsStr (pyLower d) (pyLower v)))
  else if k = "ingredient" then
    some (fun m =>
      match m.chemical_composition with
      | some cc =>
        match cc.ingredients with
        | some ings => ings.any (fun i => pyContainsStr (pyLower i.1) (pyLower v))
        | none => false
      | none => false)
  else none

/-- One pass of the `filter_data` loop body for a single criterion. -/
def applyCriterion (ms : List Medicine) (c : String × String) : List Medicine :=
  match critPred c.1 c.2 with
  | some p => ms.filter p
  | none => ms

/-- `TradChem.filter_data`: the criteria dictionary (`**filters`) in
insertion order, each recognized key narrowing the working list. -/
def filter_data (ms : List Medicine) (criteria : List (String × String)) :
    List Medicine :=
  criteria.foldl applyCriterion ms

/-- Sort key for `by='name'`. -/
def nameKey (m : Medicine) : String := m.product_name.getD ""

/-- Sort key for `by='system'`. -/
def systemKey (m : Medicine) : String := m.traditional_system.getD ""

/-- Sort key for `by='region'`. -/
def regionKey (m : Medicine) : String := m.geographic_origin.getD ""

/-- `get_avg_molecular_weight` inside `sort_data`: the mean of the
declared `molecular_weight` values of a record's ingredients, `0` when
there are none (or no composition at all). -/
def avgWeightKey (m : Medicine) : ℚ :=
  match m.chemical_composition.bind (fun cc => cc.ingredients) with
  | some ings =>
    let ws := ings.filterMap (fun i => i.2.molecular_weight)
    if ws = [] then 0 else ws.sum / (ws.length : ℚ)
  | none => 0

/-- One keyed call of Python `sorted(..., key=key, reverse=rev)`:
`sorted` is a stable sort; with `reverse=True` it is the stable sort by
the flipped comparison (equal elements still keep their input order).
`List.insertionSort` inserts earlier elements in front of later
equal-key elements, which is exactly this stable behaviour. -/
def sortByKey {β : Type} [LinearOrder β] (key : Medicine → β) (rev : Bool)
    (ms : List Medicine) : List Medicine :=
  if rev then ms.insertionSort (fun a b => key b ≤ key a)
  else ms.insertionSort (fun a b => key a ≤ key b)

/-- `TradChem.sort_data`: dispatch on the `by` argument; the final `else`
branch returns the input list unchanged. -/
def sort_data (ms : List Medicine) (byKey : String) (rev : Bool) : List Medicine :=
  if byKey = "name" then sortByKey nameKey rev ms
  else if byKey = "system" then sortByKey systemKey rev ms
  else if byKey = "region" then sortByKey regionKey rev ms
  else if byKey = "molecular_weight" then sortByKey avgWeightKey rev ms
  else ms

/-- The sort keys `sort_data` recognizes. -/
def sortKeys : List String := ["name", "system", "region", "molecular_weight"]

/-- The criterion keys `filter_data` recognizes. -/
def filterKeys : List String := ["system", "region", "benefit", "disease", "ingredient"]

/-! ### Aggregation Engine: `TradChem.statistical_analysis` -/

/-- `d[k] = d.get(k, 0) + 1` on a Python dictionary used as a counter:
update the existing entry in place, or append a new one. -/
def incrCount (d : List (String × Nat)) (k : String) : List (String × Nat) :=
  match d with
  | [] => [(k, 1)]
  | (k2, n) :: rest =>
    if k2 = k then (k2, n + 1) :: rest else (k2, n) :: incrCount rest k

/-- Sum of the counts of a counter dictionary. -/
def sumCounts (d : List (String × Nat)) : Nat := (d.map (fun p => p.2)).sum

/-- A counter built by one increment per list element under a key
function (how `collections.Counter` and the distribution loops build
their dictionaries, in first-encounter order). -/
def tally (keys : List String) : List (String × Nat) :=
  keys.foldl incrCount []

/-- Result dictionary of `statistical_analysis` (the non-empty case). -/
structure StatsResult where
  total_medicines : Nat
  unique_systems : Nat
  unique_regions : Nat
  avg_benefits_per_medicine : ℚ
  compounds_with_smiles : Nat
  system_distribution : List (String × Nat)
  region_distribution : List (String × Nat)
  benefit_frequency : List (String × Nat)
  disease_frequency : List (String × Nat)
deriving DecidableEq

/-- The `traditional_system` bucket of a record:
`medicine.get('traditional_system', 'Unknown')`. -/
def systemBucket (m : Medicine) : String := m.traditional_system.getD "Unknown"

/-- The `geographic_origin` bucket of a record. -/
def regionBucket (m : Medicine) : String := m.geographic_origin.getD "Unknown"

/-- `TradChem.statistical_analysis`: `if not medicines: return {}` — the
empty dictionary (which has no `system_distribution` entry at all) is
modelled as `none`. -/
def statistical_analysis (ms : List Medicine) : Option StatsResult :=
  if ms = [] then none
  else some
    { total_medicines := ms.length
      unique_systems := (ms.map systemBucket).dedup.length
      unique_regions := (ms.map regionBucket).dedup.length
      avg_benefits_per_medicine :=
        ((((ms.map (fun m => (m.benefits.getD []).length)).sum : ℕ)) : ℚ) / (ms.length : ℚ)
      compounds_with_smiles :=
        (ms.map (fun m => ((ingredientsOf m).filter (fun i => i.2.smiles.isSome)).length)).sum
      system_distribution := ms.foldl (fun d m => incrCount d (systemBucket m)) []
      region_distribution := ms.foldl (fun d m => incrCount d (regionBucket m)) []
      benefit_frequency := tally (ms.flatMap (fun m => m.benefits.getD []))
      disease_frequency := tally (ms.flatMap (fun m => m.diseases.getD [])) }

/-! ### Chemical Summary: `analyze_chemical_structures`

Two implementations exist in the repository.

The packaged one (`tradchem/tradchem.py`) iterates ingredients carrying a
`smiles` key and, for a collaborator-valid SMILES, calls
`smiles_utils.calculate_molecular_properties` — a function that does not
exist in `smiles_utils` (only `get_molecular_properties` does), so that
call raises `AttributeError` and the whole analysis aborts.  Every
successful return therefore comes from a run in which no SMILES was
valid: `valid_smiles` is `0`, `all_molecular_weights` stays empty and
`avg_molecular_weight` keeps its initial `0.0`.

The embedded colab copy (`colab_simple_install.py`) counts every
ingredient, counts `valid_smiles` by mere presence of the `smiles` key,
sums every declared `molecular_weight`, and divides that sum by
`total_compounds`. -/

/-- Result of either chemical analysis (the fields the claims touch;
`smiles_validation` collects the invalid examples of the packaged
version, `unique_formulas` the distinct `formula` count of the colab
version). -/
structure ChemResult where
  total_compounds : Nat
  valid_smiles : Nat
  invalid_smiles : Nat
  avg_molecular_weight : ℚ
  unique_formulas : Nat
  smiles_validation : List (String × String)
deriving DecidableEq

/-- The loop of the packaged `analyze_chemical_structures` over the
smiles-bearing ingredients: a collaborator-valid SMILES reaches the
missing `smiles_utils.calculate_molecular_properties` and raises
`AttributeError`; an invalid one increments `invalid_smiles` and records
the example.  Returns (number of processed ingredients, examples). -/
def tcAnalyzeIngs (validS : String → Bool) :
    List (String × Ingredient) → Except String (Nat × List (String × String))
  | [] => .ok (0, [])
  | (n, ing) :: rest =>
    match ing.smiles with
    | none => tcAnalyzeIngs validS rest
    | some s =>
      if (if s = "" then false else validS s) then
        .error "AttributeError: module smiles_utils has no attribute calculate_molecular_properties"
      else
        (tcAnalyzeIngs validS rest).map (fun p => (p.1 + 1, (n, s) :: p.2))

/-- Packaged `TradChem.analyze_chemical_structures`.  In a successful run
every processed ingredient was invalid, so `total_compounds` equals
`invalid_smiles`, `valid_smiles` is `0`, no molecular weight or formula
was ever collected (`all_molecular_weights` is empty: its only append
follows the raising call), and `avg_molecular_weight` stays `0`. -/
def analyze_chemical_structures (validS : String → Bool) (ms : List Medicine) :
    Except String ChemResult :=
  let smilesIngs :=
    ms.flatMap (fun m => (ingredientsOf m).filter (fun i => i.2.smiles.isSome))
  (tcAnalyzeIngs validS smilesIngs).map (fun p =>
    { total_compounds := p.1
      valid_smiles := 0
      invalid_smiles := p.1
      avg_molecular_weight := 0
      unique_formulas := 0
      smiles_validation := p.2 })

/-- All ingredient entries of a record list, in iteration order (the
colab analysis touches every one of them). -/
def allIngredients (ms : List Medicine) : List (String × Ingredient) :=
  ms.flatMap ingredientsOf

/-- Colab `TradChem.analyze_chemical_structures`: every ingredient is one
compound; `valid_smiles` counts presence of the `smiles` key; every
declared `molecular_weight` joins `total_weight` regardless of any
validity; the average divides by `total_compounds`. -/
def colab_analyze_chemical_structures (ms : List Medicine) : ChemResult :=
  let ings := allIngredients ms
  let totalWeight := (ings.filterMap (fun i => i.2.molecular_weight)).sum
  { total_compounds := ings.length
    valid_smiles := (ings.filter (fun i => i.2.smiles.isSome)).length
    invalid_smiles := (ings.filter (fun i => i.2.smiles.isNone)).length
    avg_molecular_weight :=
      if ings.length > 0 then totalWeight / (ings.length : ℚ) else 0
    unique_formulas := (ings.filterMap (fun i => i.2.formula)).dedup.length
    smiles_validation := [] }

/-- The average the claim describes: the declared weights summed and
divided by the number of ingredients declaring one (`0` for none).
Written from the claim, to compare against the implementations. -/
def claimedAvgMolecularWeight (ms : List Medicine) : ℚ :=
  let ws := (allIngredients ms).filterMap (fun i => i.2.molecular_weight)
  if ws = [] then 0 else ws.sum / (ws.length : ℚ)

/-! ### Export/Import Adapter: `DataExporter.to_csv` / `DataImporter.from_csv`

The CSV transport (pandas `to_csv` / `read_csv`) is modelled as the
identity on string cells: `to_csv` produces rows of string cells,
`from_csv` consumes them.  The exporter runs inside one `try`: any
exception is caught and the export reports failure (`none`) with nothing
written. -/

/-- One CSV row, by column name. -/
structure Row where
  product_name : String
  benefits : String
  diseases : String
  ingredients : String
  smiles : String
  entry_id : String
  date_added : String
deriving DecidableEq

/-- A record as the tabular adapter sees it; ingredient details are raw
dictionaries (insertion order), since the exporter pokes into them
dynamically. -/
structure TabRecord where
  product_name : String
  benefits : List String
  diseases : List String
  ingredients : List (String × PyDict)

/-- The exporter's smiles-cell comprehension, for one ingredient detail
dictionary `comp`: skipped (`none`) unless `comp` is non-empty and has a
`primary_smiles` key; otherwise the source evaluates
`list(comp.values())[0].get("primary_smiles", "")` — `.get` on the first
*value* of `comp`, which raises `AttributeError` unless that value is
itself a dictionary, and the later `"; ".join` raises `TypeError` unless
the fetched default-or-value is a string. -/
def smilesCellItem (comp : PyDict) : Option (Except Unit String) :=
  if !comp.isEmpty && (dictLookup comp "primary_smiles").isSome then
    some (match comp.head? with
      | some (_, .vdict d2) =>
        match (dictLookup d2 "primary_smiles").getD (.vstr "") with
        | .vstr s => .ok s
        | _ => .error ()
      | _ => .error ())
  else none

/-- The whole `smiles` cell of one exported row. -/
def smilesCell (ings : List (String × PyDict)) : Except Unit String := do
  let items ← (ings.filterMap (fun i => smilesCellItem i.2)).mapM id
  return pyJoin "; " items

/-- One row of `DataExporter.to_csv`; `entry_id`/`date_added` default to
`""` for records without them (the adapter-assigned fields are outside
`TabRecord`). -/
def to_csv_row (m : TabRecord) : Except Unit Row :=
  (smilesCell m.ingredients).map (fun sc =>
    { product_name := m.product_name
      benefits := pyJoin "; " m.benefits
      diseases := pyJoin "; " m.diseases
      ingredients := pyJoin "; " (m.ingredients.map (fun i => i.1))
      smiles := sc
      entry_id := ""
      date_added := "" })

/-- The exporter's row loop: the first raising record aborts everything. -/
def rowsOf : List TabRecord → Except Unit (List Row)
  | [] => .ok []
  | m :: rest =>
    match to_csv_row m with
    | .error e => .error e
    | .ok r =>
      match rowsOf rest with
      | .error e => .error e
      | .ok rs => .ok (r :: rs)

/-- `DataExporter.to_csv`: builds every row inside one `try`; any raise is
caught, the function returns `False` and no file is written (`none`). -/
def to_csv (ms : List TabRecord) : Option (List Row) :=
  match rowsOf ms with
  | .ok rows => some rows
  | .error _ => none

/-- A semicolon-delimited cell parsed back to a list:
`[x.strip() for x in cell.split(";") if x.strip()]`. -/
def parseListCell (cell : String) : List String :=
  ((pySplit cell ';').map pyStrip).filter (fun s => s ≠ "")

/-- The importer's ingredient loop: names and smiles are positionally
paired; a blank name is skipped; a name whose paired smiles is blank is
*dropped entirely*; a name beyond the smiles list gets an empty detail
dictionary. -/
def parseIngredients (ingCell smCell : String) : List (String × PyDict) :=
  let ingNames := pySplit ingCell ';'
  let smilesList := pySplit smCell ';'
  ingNames.enum.filterMap (fun p =>
    let ing := pyStrip p.2
    if ing = "" then none
    else if p.1 < smilesList.length then
      let s := pyStrip (smilesList.getD p.1 "")
      if s = "" then none
      else some (ing, [("primary_smiles", PyVal.vstr s)])
    else some (ing, []))

/-- One row of `DataImporter.from_csv` (the `entry_id`/`date_added`
columns are not read back). -/
def from_csv_row (r : Row) : TabRecord :=
  { product_name := r.product_name
    benefits := parseListCell r.benefits
    diseases := parseListCell r.diseases
    ingredients := parseIngredients r.ingredients r.smiles }

/-- `DataImporter.from_csv` over already-read rows. -/
def from_csv (rows : List Row) : List TabRecord :=
  rows.map from_csv_row

/-- Export then re-import (`none` when the exporter failed). -/
def csvRoundTrip (ms : List TabRecord) : Option (List TabRecord) :=
  (to_csv ms).map from_csv

/-- A benefit/disease string that survives the tabular round trip: it is
non-blank, free of `';'`, and carries no leading/trailing whitespace. -/
def goodPiece (s : String) : Bool :=
  s ≠ "" && pyStrip s = s && !(s.data.contains ';')

/-- The claim's guard: no benefit/disease string contains a literal
`"; "`. -/
def noSemiSpace (ms : List TabRecord) : Bool :=
  ms.all (fun m =>
    (m.benefits.all (fun s => !(pyContainsStr s "; "))) &&
    (m.diseases.all (fun s => !(pyContainsStr s "; "))))

/-- The hypothesis of the amended round-trip claim: every record has an
empty ingredient map and only `goodPiece` benefit/disease strings. -/
def tabularSafe (ms : List TabRecord) : Bool :=
  ms.all (fun m =>
    m.ingredients.isEmpty && m.benefits.all goodPiece && m.diseases.all goodPiece)

/-! ### Helper lemmas -/

lemma sumCounts_incrCount (d : List (String × Nat)) (k : String) :
    sumCounts (incrCount d k) = sumCounts d + 1 := by
  induction d with
  | nil => simp [incrCount, sumCounts]
  | cons p rest ih =>
    obtain ⟨k2, n⟩ := p
    by_cases h : k2 = k
    · simp [incrCount, h, sumCounts]
      ring
    · simp [incrCount, h, sumCounts] at ih ⊢
      omega

lemma sumCounts_foldl (f : Medicine → String) :
    ∀ (ms : List Medicine) (d : List (String × Nat)),
      sumCounts (ms.foldl (fun d2 m => incrCount d2 (f m)) d) = sumCounts d + ms.length := by
  intro ms
  induction ms with
  | nil => intro d; simp
  | cons m rest ih =>
    intro d
    simp only [List.foldl_cons, List.length_cons]
    rw [ih, sumCounts_incrCount]
    omega

lemma applyCriterion_comm (ms : List Medicine) (c1 c2 : String × String) :
    applyCriterion (applyCriterion ms c1) c2 = applyCriterion (applyCriterion ms c2) c1 := by
  unfold applyCriterion
  cases critPred c1.1 c1.2 with
  | none => cases critPred c2.1 c2.2 <;> rfl
  | some p =>
    cases critPred c2.1 c2.2 with
    | none => rfl
    | some q =>
      show List.filter q (List.filter p ms) = List.filter p (List.filter q ms)
      exact List.filter_comm q p ms

/-! ### C1 -/

/-- A file system in which no path exists. -/
def fsEmpty : Fs :=
  { pathExists := fun _ => false
    readJson := fun _ => none
    readCsv := fun _ => none
    readExcel := fun _ => none }

/-- C1, counterexample.  The claim says the Catalog Store load operation,
over a missing backing file, logs and returns the empty sequence without
raising.  In the source, `load_data` begins with `raise
FileNotFoundError` when the path does not exist, and `load_database`
(hence construction of the store) delegates to it: at the default
database path over an empty file system the load is an uncaught error,
not an empty catalog. -/
theorem C1_load_missing_file_raises :
    load_database fsEmpty "data/tradchem_database.json" =
      .error "File not found: data/tradchem_database.json" := rfl

/-- C1, amended.  For an existing path with extension `.json`, `load_data`
returns normally with the decoded records, and when the JSON decoder
fails (`json.load` raises, caught by `_load_json_data`) it returns the
empty list; only a *missing* file raises. -/
theorem C1_load_decode_error_returns_empty (fs : Fs) (p : String)
    (hex : fs.pathExists p = true) (hjson : extOf p = ".json") :
    load_data fs p = .ok (load_json_data fs p) ∧
    (fs.readJson p = none → load_data fs p = .ok []) := by
  have hne : (".json" : String) ≠ ".csv" := by decide
  have hstep : load_data fs p = .ok (load_json_data fs p) := by
    simp [load_data, hex, hjson, hne]
  refine ⟨hstep, fun hnone => ?_⟩
  rw [hstep]
  unfold load_json_data
  rw [hnone]

/-- A file system with a single unreadable (undecodable) JSON file. -/
def fsBadJson : Fs :=
  { pathExists := fun p => p == "db.json"
    readJson := fun _ => none
    readCsv := fun _ => none
    readExcel := fun _ => none }

/-- Witness for C1 at a concrete file system. -/
theorem C1_load_decode_error_returns_empty_witness :
    load_data fsBadJson "db.json" = .ok (load_json_data fsBadJson "db.json") ∧
    (fsBadJson.readJson "db.json" = none → load_data fsBadJson "db.json" = .ok []) :=
  C1_load_decode_error_returns_empty fsBadJson "db.json" (by decide) (by decide)

/-! ### C2 -/

/-- The duplicate record of the specification's concrete scenario. -/
def turmeric : Medicine :=
  { product_name := some "Turmeric Extract"
    benefits := some ["Anti-inflammatory"]
    diseases := some ["Arthritis"]
    chemical_composition := some ⟨some [("Curcumin", { smiles := some "CC(=O)O" })]⟩ }

/-- C2, evaluation at the failing input.  The claim (and the repository's
own `test_add_medicine`, which expects the catalog to grow and the spec
scenario, which expects a duplicate add to return false) is contradicted
by the code: the packaged `add_medicine` is the stub `return True` — it
returns `True` for a duplicate of an existing `product_name` and never
appends anything — and the embedded colab `add_medicine` appends
unconditionally, also returning `True` for a duplicate. -/
theorem C2_add_medicine_stub_behavior :
    add_medicine [turmeric] turmeric = (true, [turmeric]) ∧
    colab_add_medicine [turmeric] turmeric = (true, [turmeric, turmeric]) :=
  ⟨rfl, rfl⟩

/-! ### C5 -/

lemma critPred_none (k v : String) (h : k ∉ filterKeys) : critPred k v = none := by
  simp only [filterKeys, List.mem_cons, List.not_mem_nil, or_false, not_or] at h
  obtain ⟨h1, h2, h3, h4, h5⟩ := h
  simp [critPred, h1, h2, h3, h4, h5]

/-- C5, amended.  The claim says an unrecognized sort key or filter
criterion signals an `InvalidArgument` condition and is never silently
absorbed.  In the source the opposite holds: `sort_data` ends in `else:
return medicines` and the `filter_data` loop has no branch for an
unrecognized key, so both silently return the working list unchanged. -/
theorem C5_invalid_key_silent :
    (∀ (ms : List Medicine) (k : String) (rev : Bool),
      k ∉ sortKeys → sort_data ms k rev = ms) ∧
    (∀ (ms : List Medicine) (c : String × String),
      c.1 ∉ filterKeys → filter_data ms [c] = ms) := by
  constructor
  · intro ms k rev hk
    simp only [sortKeys, List.mem_cons, List.not_mem_nil, or_false, not_or] at hk
    obtain ⟨h1, h2, h3, h4⟩ := hk
    simp [sort_data, h1, h2, h3, h4]
  · intro ms c hc
    show applyCriterion ms c = ms
    unfold applyCriterion
    rw [critPred_none c.1 c.2 hc]

/-- Two records deliberately out of `name` order. -/
def medZeta : Medicine :=
  { product_name := some "Zinc Tonic", traditional_system := some "Unani" }

/-- A record with an `Ayurveda` system tag. -/
def medAloe : Medicine :=
  { product_name := some "Aloe Vera", traditional_system := some "Ayurveda",
    benefits := some ["Digestive aid"] }

/-- C5, counterexample.  At a concrete unrecognized key, `sort_data`
*does* simply return the (unsorted) input list and `filter_data` *does*
silently skip the criterion — refuting the claimed error signalling. -/
theorem C5_invalid_key_counterexample :
    sort_data [medZeta, medAloe] "potency" false = [medZeta, medAloe] ∧
    filter_data [medZeta, medAloe] [("potency", "high")] = [medZeta, medAloe] :=
  ⟨rfl, rfl⟩

/-- Witness for C5 at concrete inputs. -/
theorem C5_invalid_key_silent_witness :
    sort_data [medZeta, medAloe] "strength" true = [medZeta, medAloe] ∧
    filter_data [medZeta, medAloe] [("strength", "low")] = [medZeta, medAloe] :=
  ⟨C5_invalid_key_silent.1 [medZeta, medAloe] "strength" true (by decide),
   C5_invalid_key_silent.2 [medZeta, medAloe] ("strength", "low") (by decide)⟩

/-! ### C6 -/

/-- C6, counterexample.  The claim includes the empty record list, but
`statistical_analysis` starts with `if not medicines: return {}` — on
`[]` it returns the empty dictionary, which carries no
`system_distribution` whose counts could sum to `0`. -/
theorem C6_empty_stats_counterexample :
    statistical_analysis [] = none := rfl

/-- C6, amended.  For every *non-empty* record list (every list on which
the function builds its result dictionary at all) the system-distribution
counts sum to the number of records: each record lands in exactly one
bucket, records without `traditional_system` in the literal bucket
`Unknown`. -/
theorem C6_system_distribution_sums (ms : List Medicine) (st : StatsResult)
    (h : statistical_analysis ms = some st) :
    sumCounts st.system_distribution = ms.length := by
  unfold statistical_analysis at h
  by_cases hne : ms = []
  · simp [hne] at h
  · simp only [hne, if_false] at h
    cases h
    simpa [sumCounts] using sumCounts_foldl systemBucket ms []

/-- The statistics record `statistical_analysis` produces on
`[medAloe, medZeta, medAloe]`. -/
def statsW : StatsResult :=
  { total_medicines := 3
    unique_systems := 2
    unique_regions := 1
    avg_benefits_per_medicine := 2 / 3
    compounds_with_smiles := 0
    system_distribution := [("Ayurveda", 2), ("Unani", 1)]
    region_distribution := [("Unknown", 3)]
    benefit_frequency := [("Digestive aid", 2)]
    disease_frequency := [] }

/-- Witness for C6 at a concrete three-record list. -/
theorem C6_system_distribution_sums_witness :
    sumCounts statsW.system_distribution = 3 :=
  C6_system_distribution_sums [medAloe, medZeta, medAloe] statsW (by
    unfold statistical_analysis
    rw [if_neg (by simp)]
    refine congrArg some ?_
    unfold statsW
    simp only [StatsResult.mk.injEq]
    refine ⟨rfl, rfl, rfl, ?_, rfl, rfl, rfl, rfl, rfl⟩
    show ((2 : ℕ) : ℚ) / ((3 : ℕ) : ℚ) = 2 / 3
    norm_num)

/-! ### C7 -/

/-- C7: `filter_data` is a conjunctive filter whose criteria compose and
commute — filtering with two criteria in one call equals filtering with
the first and then the second, in either order. -/
theorem C7_filter_conjunction_commutes (ms : List Medicine) (c1 c2 : String × String) :
    filter_data ms [c1, c2] = filter_data (filter_data ms [c1]) [c2] ∧
    filter_data ms [c1, c2] = filter_data (filter_data ms [c2]) [c1] :=
  ⟨rfl, applyCriterion_comm ms c1 c2⟩

/-! ### C10 -/

lemma checkRequired_inv (m : PyDict) (r : VRes) (h : r.valid = r.errors.isEmpty) :
    (checkRequired m r).valid = (checkRequired m r).errors.isEmpty := by
  unfold checkRequired
  generalize requiredFields = fs
  induction fs generalizing r with
  | nil => simpa using h
  | cons f fs ih =>
    simp only [List.foldl_cons]
    apply ih
    by_cases hf : (dictLookup m f).isNone
    · simp [hf]
    · simpa [hf] using h

lemma checkType_inv (m : PyDict) (field : String) (pred : PyVal → Bool)
    (msg : String) (r : VRes) (h : r.valid = r.errors.isEmpty) :
    (checkType m field pred msg r).valid = (checkType m field pred msg r).errors.isEmpty := by
  unfold checkType
  cases dictLookup m field with
  | none => exact h
  | some v =>
    cases hp : pred v
    · simp [hp]
    · simpa [hp] using h

lemma typeChecksRes_inv (m : PyDict) :
    (typeChecksRes m).valid = (typeChecksRes m).errors.isEmpty :=
  checkType_inv _ _ _ _ _ (checkType_inv _ _ _ _ _ (checkType_inv _ _ _ _ _
    (checkType_inv _ _ _ _ _ (checkRequired_inv m ⟨true, [], []⟩ rfl))))

lemma valid_iff_of_isEmpty (r : VRes) (h : r.valid = r.errors.isEmpty) :
    (r.valid = true ↔ r.errors = []) := by
  rw [h]
  exact List.isEmpty_iff

/-- C10: every result `validate_medicine_data` actually returns satisfies
`valid = true` exactly when its error list is empty — no code path sets
`valid` to false without appending an error, none appends an error while
leaving `valid` true, and the warning pass never touches `valid` or
`errors`.  (On inputs whose `chemical_composition` neighbourhood makes
the warning pass raise, there is no result at all — and also no
mismatched one.) -/
theorem C10_valid_iff_errors_empty (oracle : String → Bool) (m : PyDict) (r : VRes)
    (h : validate_medicine_data oracle m = .ok r) :
    (r.valid = true ↔ r.errors = []) := by
  have hq := typeChecksRes_inv m
  unfold validate_medicine_data at h
  cases hcc : dictLookup m "chemical_composition" with
  | none =>
    rw [hcc] at h
    cases h
    exact valid_iff_of_isEmpty _ hq
  | some cc =>
    rw [hcc] at h
    dsimp only at h
    cases hpc : pyContains cc "ingredients" with
    | error e => rw [hpc] at h; cases h
    | ok b =>
      rw [hpc] at h
      cases b with
      | false =>
        cases h
        exact valid_iff_of_isEmpty _ hq
      | true =>
        cases hgi : pyGetItem cc "ingredients" with
        | error e => rw [hgi] at h; cases h
        | ok ings =>
          rw [hgi] at h
          cases ings with
          | vdict d =>
            cases h
            exact valid_iff_of_isEmpty _ hq
          | vstr s => cases h
          | vnum q => cases h
          | vlist xs => cases h

/-- A record with a wrongly typed `benefits` and an invalid SMILES, on
which validation succeeds with one error. -/
def mC10 : PyDict :=
  [("product_name", .vstr "X"), ("benefits", .vstr "not-a-list"),
   ("diseases", .vlist []),
   ("chemical_composition", .vdict [("ingredients",
      .vdict [("Curc", .vdict [("smiles", .vstr "bad")])])])]

/-- Witness for C10 at a concrete record and oracle. -/
theorem C10_valid_iff_errors_empty_witness :
    ((false : Bool) = true ↔ (["benefits must be a list"] : List String) = []) :=
  C10_valid_iff_errors_empty (fun _ => false) mC10
    ⟨false, ["benefits must be a list"],
     ["Invalid SMILES for Curc: bad"]⟩ rfl

/-! ### C4 -/

lemma reqFold_spec (m : PyDict) :
    ∀ (fs : List String) (r : VRes),
      fs.foldl
        (fun acc f =>
          if (dictLookup m f).isNone then
            ⟨false, acc.errors ++ ["Missing required field: " ++ f], acc.warnings⟩
          else acc) r
      = ⟨r.valid && fs.all (fun f => (dictLookup m f).isSome),
         r.errors ++ (fs.filter (fun f => (dictLookup m f).isNone)).map
           (fun f => "Missing required field: " ++ f),
         r.warnings⟩ := by
  intro fs
  induction fs with
  | nil => intro r; simp
  | cons f fs ih =>
    intro r
    by_cases hf : (dictLookup m f).isNone
    · have hs : (dictLookup m f).isSome = false := by
        cases hl : dictLookup m f
        · rfl
        · rw [hl] at hf; simp at hf
      simp only [List.foldl_cons, if_pos hf, ih]
      simp [hs, hf, List.filter_cons]
    · have hs : (dictLookup m f).isSome = true := by
        cases hl : dictLookup m f
        · rw [hl] at hf; simp at hf
        · rfl
      have hfb : (dictLookup m f).isNone = false := by
        cases hl : dictLookup m f
        · rw [hl] at hf; simp at hf
        · rfl
      simp only [List.foldl_cons, if_neg hf, ih]
      simp [hs, hfb, List.filter_cons]

lemma checkType_skip (m : PyDict) (field : String) (pred : PyVal → Bool)
    (msg : String) (r : VRes)
    (h : ∀ v, dictLookup m field = some v → pred v = true) :
    checkType m field pred msg r = r := by
  unfold checkType
  cases hl : dictLookup m field with
  | none => rfl
  | some v =>
    dsimp only
    rw [if_pos (h v hl)]

lemma typeChecksRes_of_wellTyped (m : PyDict) (hwt : wellTypedPresent m = true) :
    typeChecksRes m =
      ⟨requiredFields.all (fun f => (dictLookup m f).isSome), missingFieldMsgs m, []⟩ := by
  simp only [wellTypedPresent, Bool.and_eq_true] at hwt
  obtain ⟨⟨⟨hpn, hbn⟩, hds⟩, hcc⟩ := hwt
  have h1 : ∀ v, dictLookup m "product_name" = some v → v.isStr = true := by
    intro v hv; rw [hv] at hpn; exact hpn
  have h2 : ∀ v, dictLookup m "benefits" = some v → v.isList = true := by
    intro v hv; rw [hv] at hbn; exact hbn
  have h3 : ∀ v, dictLookup m "diseases" = some v → v.isList = true := by
    intro v hv; rw [hv] at hds; exact hds
  have h4 : ∀ v, dictLookup m "chemical_composition" = some v → v.isDict = true := by
    intro v hv
    rw [hv] at hcc
    cases v <;> simp_all [PyVal.isDict]
  unfold typeChecksRes
  rw [checkRequired, reqFold_spec, checkType_skip _ _ _ _ _ h1, checkType_skip _ _ _ _ _ h2,
    checkType_skip _ _ _ _ _ h3, checkType_skip _ _ _ _ _ h4]
  simp [missingFieldMsgs]

/-- C4: for every record missing at least one required field whose present
fields are well-typed (per the data model), validation returns normally
with `valid = false` and an error list naming exactly the missing
required fields, one message per absent field, in source order, and
nothing else. -/
theorem C4_validate_missing_fields (oracle : String → Bool) (m : PyDict)
    (hwt : wellTypedPresent m = true)
    (hmiss : requiredFields.any (fun f => (dictLookup m f).isNone) = true) :
    (validate_medicine_data oracle m).map (fun r => (r.valid, r.errors)) =
      .ok (false, missingFieldMsgs m) := by
  have hall : requiredFields.all (fun f => (dictLookup m f).isSome) = false := by
    obtain ⟨f, hfm, hf⟩ := List.any_eq_true.mp hmiss
    refine List.all_eq_false.mpr ⟨f, hfm, ?_⟩
    cases hl : dictLookup m f
    · simp
    · rw [hl] at hf; simp at hf
  have htcr := typeChecksRes_of_wellTyped m hwt
  rw [hall] at htcr
  have hccwt := hwt
  simp only [wellTypedPresent, Bool.and_eq_true] at hccwt
  obtain ⟨-, hcc⟩ := hccwt
  unfold validate_medicine_data
  cases hlcc : dictLookup m "chemical_composition" with
  | none =>
    dsimp only
    simp [htcr, Except.map]
  | some cc =>
    rw [hlcc] at hcc
    dsimp only
    cases cc with
    | vstr s => simp at hcc
    | vnum q => simp at hcc
    | vlist xs => simp at hcc
    | vdict d =>
      dsimp only at hcc
      simp only [pyContains]
      cases hing : dictLookup d "ingredients" with
      | none => simp [htcr, Except.map]
      | some v =>
        rw [hing] at hcc
        simp only [Option.isSome_some, pyGetItem, hing]
        cases v with
        | vdict d2 => simp [htcr, Except.map]
        | vstr s => simp [PyVal.isDict] at hcc
        | vnum q => simp [PyVal.isDict] at hcc
        | vlist xs => simp [PyVal.isDict] at hcc

/-- A record missing `product_name` and `diseases`, with well-typed
present fields. -/
def mC4 : PyDict :=
  [("benefits", .vlist []), ("chemical_composition", .vdict [])]

/-- Witness for C4 at a concrete record and oracle. -/
theorem C4_validate_missing_fields_witness :
    (validate_medicine_data (fun _ => false) mC4).map (fun r => (r.valid, r.errors)) =
      .ok (false, missingFieldMsgs mC4) :=
  C4_validate_missing_fields (fun _ => false) mC4 (by rfl) (by rfl)

/-! ### C8 -/

lemma filter_insertionSort {α : Type} (r : α → α → Prop) [DecidableRel r]
    (l : List α) (p : α → Bool)
    (hp : ∀ a b, p a = true → p b = true → r a b) :
    (l.insertionSort r).filter p = l.filter p := by
  have hpw : (l.filter p).Pairwise r :=
    List.pairwise_of_forall_mem_list
      (fun a ha b hb => hp a b (List.of_mem_filter ha) (List.of_mem_filter hb))
  have hfix : (l.filter p).filter p = l.filter p :=
    List.filter_eq_self.mpr (fun a ha => List.of_mem_filter ha)
  have hsub : List.Sublist (l.filter p) (l.insertionSort r) :=
    List.sublist_insertionSort hpw (List.filter_sublist l)
  have h2 : List.Sublist (l.filter p) ((l.insertionSort r).filter p) := by
    have h3 := hsub.filter p
    rwa [hfix] at h3
  have hperm : List.Perm ((l.insertionSort r).filter p) (l.filter p) :=
    (List.perm_insertionSort r l).filter p
  exact (h2.eq_of_length hperm.length_eq.symm).symm

lemma sortByKey_filter {β : Type} [LinearOrder β] (key : Medicine → β) (rev : Bool)
    (ms : List Medicine) (p : Medicine → Bool)
    (hp : ∀ a b, p a = true → p b = true → key a = key b) :
    (sortByKey key rev ms).filter p = ms.filter p := by
  unfold sortByKey
  cases rev
  · simp only [if_neg Bool.false_ne_true]
    exact filter_insertionSort _ ms p (fun a b ha hb => (hp a b ha hb).le)
  · simp only [if_pos rfl]
    exact filter_insertionSort _ ms p (fun a b ha hb => (hp a b ha hb).ge)

lemma sortByKey_idem {β : Type} [LinearOrder β] (key : Medicine → β) (rev : Bool)
    (ms : List Medicine) :
    sortByKey key rev (sortByKey key rev ms) = sortByKey key rev ms := by
  unfold sortByKey
  cases rev
  · simp only [if_neg Bool.false_ne_true]
    haveI : IsTotal Medicine (fun a b => key a ≤ key b) :=
      ⟨fun a b => le_total (key a) (key b)⟩
    haveI : IsTrans Medicine (fun a b => key a ≤ key b) :=
      ⟨fun _ _ _ h1 h2 => le_trans h1 h2⟩
    exact List.Sorted.insertionSort_eq (List.sorted_insertionSort _ ms)
  · simp only [if_pos rfl]
    haveI : IsTotal Medicine (fun a b => key b ≤ key a) :=
      ⟨fun a b => le_total (key b) (key a)⟩
    haveI : IsTrans Medicine (fun a b => key b ≤ key a) :=
      ⟨fun _ _ _ h1 h2 => le_trans h2 h1⟩
    exact List.Sorted.insertionSort_eq (List.sorted_insertionSort _ ms)

/-- Two records have equal sort keys for the given `by` argument. -/
def sameKey (k : String) (a b : Medicine) : Prop :=
  if k = "name" then nameKey a = nameKey b
  else if k = "system" then systemKey a = systemKey b
  else if k = "region" then regionKey a = regionKey b
  else if k = "molecular_weight" then avgWeightKey a = avgWeightKey b
  else True

/-- C8: for every valid sort key and reverse flag, `sort_data` is stable —
the subsequence of records sharing any key value (any `p` selecting only
records of one key) is exactly the one of the input — and sorting an
already sorted list again (in particular, the output) is a no-op. -/
theorem C8_sort_stable_idempotent (ms : List Medicine) (k : String) (rev : Bool)
    (hk : k ∈ sortKeys) :
    (∀ p : Medicine → Bool,
      (∀ a b, p a = true → p b = true → sameKey k a b) →
      (sort_data ms k rev).filter p = ms.filter p) ∧
    sort_data (sort_data ms k rev) k rev = sort_data ms k rev := by
  simp only [sortKeys, List.mem_cons, List.not_mem_nil, or_false] at hk
  rcases hk with rfl | rfl | rfl | rfl
  · constructor
    · intro p hp
      simp only [sort_data, if_pos rfl]
      refine sortByKey_filter nameKey rev ms p (fun a b ha hb => ?_)
      have := hp a b ha hb
      simpa [sameKey] using this
    · simp only [sort_data, if_pos rfl]
      exact sortByKey_idem nameKey rev ms
  · constructor
    · intro p hp
      simp only [sort_data, if_neg (by decide : ¬("system" : String) = "name"), if_pos rfl]
      refine sortByKey_filter systemKey rev ms p (fun a b ha hb => ?_)
      have := hp a b ha hb
      simpa [sameKey] using this
    · simp only [sort_data, if_neg (by decide : ¬("system" : String) = "name"), if_pos rfl]
      exact sortByKey_idem systemKey rev ms
  · constructor
    · intro p hp
      simp only [sort_data, if_neg (by decide : ¬("region" : String) = "name"),
        if_neg (by decide : ¬("region" : String) = "system"), if_pos rfl]
      refine sortByKey_filter regionKey rev ms p (fun a b ha hb => ?_)
      have := hp a b ha hb
      simpa [sameKey] using this
    · simp only [sort_data, if_neg (by decide : ¬("region" : String) = "name"),
        if_neg (by decide : ¬("region" : String) = "system"), if_pos rfl]
      exact sortByKey_idem regionKey rev ms
  · constructor
    · intro p hp
      simp only [sort_data, if_neg (by decide : ¬("molecular_weight" : String) = "name"),
        if_neg (by decide : ¬("molecular_weight" : String) = "system"),
        if_neg (by decide : ¬("molecular_weight" : String) = "region"), if_pos rfl]
      refine sortByKey_filter avgWeightKey rev ms p (fun a b ha hb => ?_)
      have := hp a b ha hb
      simpa [sameKey] using this
    · simp only [sort_data, if_neg (by decide : ¬("molecular_weight" : String) = "name"),
        if_neg (by decide : ¬("molecular_weight" : String) = "system"),
        if_neg (by decide : ¬("molecular_weight" : String) = "region"), if_pos rfl]
      exact sortByKey_idem avgWeightKey rev ms

/-- Selects the records named `Aloe Vera`. -/
def pAloe : Medicine → Bool := fun m => nameKey m == "Aloe Vera"

/-- Witness for C8: stability and idempotence at a concrete list. -/
theorem C8_sort_stable_idempotent_witness :
    (sort_data [medZeta, medAloe] "name" false).filter pAloe =
      [medZeta, medAloe].filter pAloe ∧
    sort_data (sort_data [medZeta, medAloe] "name" false) "name" false =
      sort_data [medZeta, medAloe] "name" false :=
  ⟨(C8_sort_stable_idempotent [medZeta, medAloe] "name" false (by decide)).1 pAloe
      (fun a b ha hb => by
        have h1 : nameKey a = "Aloe Vera" := eq_of_beq ha
        have h2 : nameKey b = "Aloe Vera" := eq_of_beq hb
        simp [sameKey, h1, h2]),
   (C8_sort_stable_idempotent [medZeta, medAloe] "name" false (by decide)).2⟩

/-! ### C9 -/

/-- A record with one ingredient declaring `molecular_weight` and one
declaring nothing (neither has any SMILES). -/
def medC9 : Medicine :=
  { product_name := some "Mix"
    chemical_composition := some ⟨some [("a", { molecular_weight := some 10 }), ("b", {})]⟩ }

/-- A record with a single ingredient carrying an (invalid) SMILES and a
declared `molecular_weight`. -/
def medC9i : Medicine :=
  { product_name := some "Bark"
    chemical_composition :=
      some ⟨some [("c", { smiles := some "bad", molecular_weight := some 10 })]⟩ }

/-- C9, counterexample.  The claim says `avg_molecular_weight` equals the
sum of the declared ingredient weights divided by the number of
ingredients declaring one.  In the embedded colab summary the divisor is
`total_compounds` (all ingredients): one weighted and one unweighted
ingredient average to `5`, not the claimed `10`.  In the packaged
`analyze_chemical_structures` declared weights are never read at all: an
ingredient whose SMILES the collaborator rejects contributes nothing
(average `0`), and one whose SMILES is accepted makes the whole analysis
raise `AttributeError` (the helper it calls does not exist in
`smiles_utils`). -/
theorem C9_avg_weight_counterexample :
    (colab_analyze_chemical_structures [medC9]).avg_molecular_weight = 5 ∧
    claimedAvgMolecularWeight [medC9] = 10 ∧
    (5 : ℚ) ≠ 10 ∧
    (analyze_chemical_structures (fun _ => false) [medC9i]).map
      (fun r => r.avg_molecular_weight) = .ok 0 ∧
    claimedAvgMolecularWeight [medC9i] = 10 ∧
    analyze_chemical_structures (fun _ => true) [medC9i] =
      .error "AttributeError: module smiles_utils has no attribute calculate_molecular_properties" := by
  refine ⟨?_, ?_, by norm_num, rfl, ?_, rfl⟩
  · show ((10 : ℚ) + 0) / ((2 : ℕ) : ℚ) = 5
    norm_num
  · show ((10 : ℚ) + 0) / ((1 : ℕ) : ℚ) = 10
    norm_num
  · show ((10 : ℚ) + 0) / ((1 : ℕ) : ℚ) = 10
    norm_num

/-- C9, amended.  In the colab summary every declared `molecular_weight`
is folded into the running sum regardless of SMILES validity, but
`avg_molecular_weight` is that sum divided by `total_compounds` — the
count of *all* ingredient entries, not of those declaring a weight (`0`
when there are no ingredients).  Every successful run of the packaged
`analyze_chemical_structures` reports `avg_molecular_weight = 0`: its
weight list can only be filled after a call that always raises. -/
theorem C9_avg_weight_divisor :
    (∀ ms : List Medicine,
      (colab_analyze_chemical_structures ms).avg_molecular_weight =
        if allIngredients ms = [] then 0
        else ((allIngredients ms).filterMap (fun i => i.2.molecular_weight)).sum /
          ((allIngredients ms).length : ℚ)) ∧
    (∀ (validS : String → Bool) (ms : List Medicine) (r : ChemResult),
      analyze_chemical_structures validS ms = .ok r → r.avg_molecular_weight = 0) := by
  constructor
  · intro ms
    unfold colab_analyze_chemical_structures
    cases h : allIngredients ms with
    | nil => simp
    | cons i rest => simp
  · intro validS ms r h
    unfold analyze_chemical_structures at h
    dsimp only at h
    cases ht : tcAnalyzeIngs validS
        (ms.flatMap (fun m => (ingredientsOf m).filter (fun i => i.2.smiles.isSome))) with
    | error e => rw [ht] at h; cases h
    | ok p =>
      rw [ht] at h
      cases h
      rfl

/-- Witness for C9: the colab average at a concrete list, and a concrete
successful packaged run reporting average `0`. -/
theorem C9_avg_weight_divisor_witness :
    ((colab_analyze_chemical_structures [medC9]).avg_molecular_weight =
      if allIngredients [medC9] = [] then 0
      else ((allIngredients [medC9]).filterMap (fun i => i.2.molecular_weight)).sum /
        ((allIngredients [medC9]).length : ℚ)) ∧
    (analyze_chemical_structures (fun _ => false) [medC9i]).map
        (fun r => r.avg_molecular_weight) = .ok 0 := by
  constructor
  · exact C9_avg_weight_divisor.1 [medC9]
  · have h := C9_avg_weight_divisor.2 (fun _ => false) [medC9i]
      ⟨1, 0, 1, 0, 0, [("c", "bad")]⟩ rfl
    rw [show analyze_chemical_structures (fun _ => false) [medC9i] =
        .ok ⟨1, 0, 1, 0, 0, [("c", "bad")]⟩ from rfl]
    show Except.ok ((⟨1, 0, 1, 0, 0, [("c", "bad")]⟩ : ChemResult).avg_molecular_weight) =
      .ok 0
    exact congrArg Except.ok h

/-! ### C3 -/

/-- A record whose benefit string contains a bare `';'` (but no `"; "`). -/
def trSemi : TabRecord := ⟨"P", ["a;b"], [], []⟩

/-- A record with one ingredient in the canonical imported shape
(`primary_smiles` detail). -/
def trSmiles : TabRecord := ⟨"Q", [], [], [("Curcumin", [("primary_smiles", .vstr "CC")])]⟩

/-- A record with one ingredient that declares no SMILES. -/
def trPlain : TabRecord := ⟨"R", [], [], [("Herb", [])]⟩

/-- C3, counterexample.  Three concrete record lists satisfy the claim's
guard (no `"; "` inside a benefit/disease string) and still break the
round trip: a bare `';'` in a benefit is split anyway; a record with a
`primary_smiles` ingredient makes `to_csv` itself fail (its comprehension
calls `.get` on the first *value* of the detail dictionary — a string —
so the exporter catches an `AttributeError` and returns `False`, writing
nothing); an ingredient without a SMILES is dropped entirely on
re-import. -/
theorem C3_roundtrip_counterexample :
    (noSemiSpace [trSemi] = true ∧
      csvRoundTrip [trSemi] = some [⟨"P", ["a", "b"], [], []⟩] ∧
      (⟨"P", ["a", "b"], [], []⟩ : TabRecord) ≠ trSemi) ∧
    (noSemiSpace [trSmiles] = true ∧ to_csv [trSmiles] = none) ∧
    (noSemiSpace [trPlain] = true ∧
      csvRoundTrip [trPlain] = some [⟨"R", [], [], []⟩] ∧
      (⟨"R", [], [], []⟩ : TabRecord) ≠ trPlain) := by
  refine ⟨⟨by decide, rfl, ?_⟩, ⟨by decide, rfl⟩, ⟨by decide, rfl, ?_⟩⟩
  · intro h
    rw [TabRecord.mk.injEq] at h
    exact absurd h.2.1 (by decide)
  · intro h
    rw [TabRecord.mk.injEq] at h
    cases h.2.2.2

lemma pySplitChars_ne_nil (sep : Char) : ∀ cs : List Char, pySplitChars sep cs ≠ [] := by
  intro cs
  cases cs with
  | nil => simp [pySplitChars]
  | cons c rest =>
    rw [pySplitChars]
    cases pySplitChars sep rest with
    | nil => simp
    | cons h t =>
      dsimp only
      by_cases hc : c = sep
      · simp [hc]
      · simp [hc]

lemma pySplitChars_of_not_mem (sep : Char) (cs : List Char) (h : sep ∉ cs) :
    pySplitChars sep cs = [cs] := by
  induction cs with
  | nil => rfl
  | cons c rest ih =>
    simp only [List.mem_cons, not_or] at h
    rw [pySplitChars, ih h.2]
    dsimp only
    rw [if_neg (fun hc => h.1 hc.symm)]

lemma pySplitChars_append (sep : Char) (b t : List Char) (h : sep ∉ b) :
    pySplitChars sep (b ++ sep :: t) = b :: pySplitChars sep t := by
  induction b with
  | nil =>
    simp only [List.nil_append]
    rw [pySplitChars]
    cases hr : pySplitChars sep t with
    | nil => exact absurd hr (pySplitChars_ne_nil sep t)
    | cons h2 t2 =>
      dsimp only
      rw [if_pos rfl]
  | cons c b ih =>
    simp only [List.mem_cons, not_or] at h
    simp only [List.cons_append]
    rw [pySplitChars, ih h.2]
    dsimp only
    rw [if_neg (fun hc => h.1 hc.symm)]

lemma pySplitChars_join (rest : List (List Char)) :
    ∀ b : List Char, ';' ∉ b → (∀ x ∈ rest, ';' ∉ x) →
      pySplitChars ';' (pyJoinChars [';', ' '] (b :: rest)) =
        b :: rest.map (fun x => ' ' :: x) := by
  induction rest with
  | nil =>
    intro b hb _
    rw [pyJoinChars, pySplitChars_of_not_mem ';' b hb]
    rfl
  | cons c rest ih =>
    intro b hb hr
    rw [pyJoinChars]
    have hstep : b ++ [';', ' '] ++ pyJoinChars [';', ' '] (c :: rest) =
        b ++ ';' :: ' ' :: pyJoinChars [';', ' '] (c :: rest) := by
      simp
    rw [hstep, pySplitChars_append ';' b _ hb]
    have hih := ih c (hr c (List.mem_cons_self c rest))
      (fun x hx => hr x (List.mem_cons_of_mem c hx))
    rw [pySplitChars, hih]
    dsimp only
    rw [if_neg (by decide)]
    simp

lemma stripChars_dropWhile_eq (cs : List Char) (h : pyStripChars cs = cs) :
    cs.dropWhile Char.isWhitespace = cs := by
  have hsuf : List.IsSuffix (cs.dropWhile Char.isWhitespace) cs := List.dropWhile_suffix _
  have e1 : (pyStripChars cs).length = cs.length := by rw [h]
  have e2 : (pyStripChars cs).length ≤ (cs.dropWhile Char.isWhitespace).length := by
    unfold pyStripChars
    rw [List.length_reverse]
    calc ((cs.dropWhile Char.isWhitespace).reverse.dropWhile Char.isWhitespace).length
        ≤ (cs.dropWhile Char.isWhitespace).reverse.length :=
          (List.dropWhile_suffix _).length_le
      _ = (cs.dropWhile Char.isWhitespace).length := List.length_reverse _
  have e3 : (cs.dropWhile Char.isWhitespace).length ≤ cs.length := hsuf.length_le
  exact hsuf.eq_of_length (by omega)

lemma pyStripChars_space (cs : List Char) (h : pyStripChars cs = cs) :
    pyStripChars (' ' :: cs) = cs := by
  have hd := stripChars_dropWhile_eq cs h
  unfold pyStripChars at h ⊢
  rw [show (' ' :: cs).dropWhile Char.isWhitespace = cs.dropWhile Char.isWhitespace from by
    simp [List.dropWhile_cons]]
  rw [hd] at h ⊢
  exact h

lemma parse_join (bs : List String) (h : bs.all goodPiece = true) :
    parseListCell (pyJoin "; " bs) = bs := by
  cases bs with
  | nil => rfl
  | cons b rest =>
    have hgood : ∀ s ∈ b :: rest, s ≠ "" ∧ pyStrip s = s ∧ ';' ∉ s.data := by
      intro s hs
      have hgs := List.all_eq_true.mp h s hs
      simp only [goodPiece, Bool.and_eq_true, decide_eq_true_eq,
        Bool.not_eq_true'] at hgs
      refine ⟨hgs.1.1, hgs.1.2, ?_⟩
      intro hmem
      have hc2 : s.data.contains ';' = true := List.elem_iff.mpr hmem
      rw [hgs.2] at hc2
      cases hc2
    have hb := hgood b (List.mem_cons_self b rest)
    have hchars := pySplitChars_join (rest.map String.data) b.data hb.2.2
      (fun x hx => by
        obtain ⟨r, hr, rfl⟩ := List.mem_map.mp hx
        exact (hgood r (List.mem_cons_of_mem b hr)).2.2)
    unfold parseListCell pySplit pyJoin
    rw [show ("; " : String).data = [';', ' '] from rfl]
    dsimp only [List.map_cons]
    rw [hchars]
    have hlist : ((b.data :: (rest.map String.data).map (fun x => ' ' :: x)).map
        String.mk).map pyStrip = b :: rest := by
      rw [List.map_map, List.map_cons]
      refine congrArg₂ List.cons ?_ ?_
      · show pyStrip (String.mk b.data) = b
        exact hb.2.1
      · rw [List.map_map, List.map_map]
        refine (List.map_congr_left ?_).trans (List.map_id rest)
        intro r hr
        have hstrip : pyStripChars r.data = r.data :=
          congrArg String.data (hgood r (List.mem_cons_of_mem b hr)).2.1
        show String.mk (pyStripChars (' ' :: r.data)) = id r
        rw [pyStripChars_space r.data hstrip]
        rfl
    rw [hlist]
    refine List.filter_eq_self.mpr ?_
    intro a ha
    simpa using (hgood a ha).1

lemma row_of_safe (m : TabRecord) (h1 : m.ingredients = [])
    (h2 : m.benefits.all goodPiece = true) (h3 : m.diseases.all goodPiece = true) :
    to_csv_row m =
      .ok ⟨m.product_name, pyJoin "; " m.benefits, pyJoin "; " m.diseases, "", "", "", ""⟩ ∧
    from_csv_row
      ⟨m.product_name, pyJoin "; " m.benefits, pyJoin "; " m.diseases, "", "", "", ""⟩ = m := by
  constructor
  · unfold to_csv_row smilesCell
    rw [h1]
    rfl
  · obtain ⟨pn, bs, ds, ings⟩ := m
    simp only at h1 h2 h3
    subst h1
    unfold from_csv_row
    simp only
    rw [parse_join bs h2, parse_join ds h3]
    rfl

/-- C3, amended.  The tabular round trip does reconstruct a record list,
but only on the far smaller class the code actually supports: records
with an *empty* ingredient map whose benefit and disease strings are
non-blank, free of a bare `';'` (not merely of `"; "`), and carry no
leading/trailing whitespace.  Outside that class the round trip fails:
`to_csv` itself errors on any `primary_smiles` ingredient, smiles-less
ingredients are dropped by `from_csv`, a `';'` inside a string is split,
and padding/blank strings are stripped or discarded. -/
theorem C3_roundtrip_restricted (ms : List TabRecord) (h : tabularSafe ms = true) :
    csvRoundTrip ms = some ms := by
  induction ms with
  | nil => rfl
  | cons m rest ih =>
    rw [tabularSafe, List.all_cons, Bool.and_eq_true] at h
    obtain ⟨hm, hrest⟩ := h
    have ih2 := ih hrest
    simp only [Bool.and_eq_true] at hm
    obtain ⟨⟨hing, hben⟩, hdis⟩ := hm
    have hing2 : m.ingredients = [] := by
      cases hi : m.ingredients
      · rfl
      · rw [hi] at hing; cases hing
    have hrow := row_of_safe m hing2 hben hdis
    unfold csvRoundTrip to_csv at ih2 ⊢
    rw [rowsOf, hrow.1]
    cases hrm : rowsOf rest with
    | error e =>
      rw [hrm] at ih2
      cases ih2
    | ok rows =>
      rw [hrm] at ih2
      replace ih2 : from_csv rows = rest := by simpa using ih2
      exact congrArg some (congrArg₂ List.cons hrow.2 ih2)

/-- A concrete safe two-record catalog. -/
def trSafe1 : TabRecord := ⟨"Turmeric Extract", ["Anti-inflammatory"], ["Arthritis"], []⟩

/-- A second concrete safe record. -/
def trSafe2 : TabRecord := ⟨"Ginger Root", ["Digestive aid"], ["Nausea"], []⟩

/-- Witness for C3 at a concrete safe catalog. -/
theorem C3_roundtrip_restricted_witness :
    csvRoundTrip [trSafe1, trSafe2] = some [trSafe1, trSafe2] :=
  C3_roundtrip_restricted [trSafe1, trSafe2] (by decide)
